import Mathlib

/-!
Formalisation of freud.py (an fpaper e-paper document renderer): the byte-stream
decoder (`FPaperMarkers` / `FPaper_Extract`) and the `Totem` pager's viewport
key loop, embedded as executable Lean definitions, with theorems about their
observable behaviour.

Modelling conventions.  Bytes are natural numbers below 256; the decoded buffer
(`extracted_text`) is a list of character code points.  Python's one-byte
`bytes.decode` with the default utf-8 codec succeeds exactly on bytes below 128
(a lone byte of 128 or more is never a complete UTF-8 sequence); the embedding
models the raised `UnicodeDecodeError` by `detect` returning `none`, which the
read loop (`extractLoop`) propagates.  `get_terminal_size` returns the pair
(rows, cols) unpacked from the `TIOCGWINSZ` winsize structure; the embedding
passes that pair as a parameter, and `FPaper_Extract.__init__` binds `__w__` to
its first component (the row count) and `__h__` to its second.  The pager's
float arithmetic (`__h__ / 3.95` followed by integer increments and decrements)
is modelled exactly over `ℚ`.
-/

namespace FPaperMarkers

def START_MARKER : Nat := 0x02
def START_MARKER_2 : Nat := 0x46
def START_MARKER_3 : Nat := 0x50
def START_MARKER_4 : Nat := 0x61
def START_MARKER_5 : Nat := 0x67
def START_MARKER_6 : Nat := 0x65

def START_OF_TEXT : Nat := 0x26
def END_OF_TEXT : Nat := 0x15

def STYLE_MARKER : Nat := 0x1A
def LIGHT_SET : Nat := 0x30
def BOLD_SET : Nat := 0x31
def DIM_SET : Nat := 0x32
def ITALIC_SET : Nat := 0x33
def UNDERLINED_SET : Nat := 0x34
def BLINK_SET : Nat := 0x35
def RAPID_BLINK_SET : Nat := 0x36

def COLOR_RESET : Nat := 0x72

def ALIGN_LEFT_SET : Nat := 0x7B
def ALIGN_CENTER_SET : Nat := 0x7C
def ALIGN_RIGHT_SET : Nat := 0x7D
def ALIGN_RESET : Nat := 0x7E

end FPaperMarkers

open FPaperMarkers

/-- Decimal digit characters of a natural number, as code points: the
expansion of the f-string interpolation of an integer. -/
def natDecimal (n : Nat) : List Nat :=
  (Nat.toDigits 10 n).map Char.toNat

/-- The mutable instance state of `FPaper_Extract`: the two accumulation
buffers, the stage flags, and the terminal size captured at construction.
`isWindows` records the result of `platform.system() == 'Windows'`. -/
structure ExtractState where
  extracted_text : List Nat
  get_align_text : List Nat
  is_start_marker : Bool
  is_start_marker_2 : Bool
  is_start_marker_3 : Bool
  is_start_marker_4 : Bool
  is_start_marker_5 : Bool
  is_start_marker_6 : Bool
  is_start_of_text : Bool
  is_end_of_text : Bool
  is_style_marker : Bool
  is_align : Bool
  is_left_align : Bool
  is_center_align : Bool
  is_right_align : Bool
  is_reset_align : Bool
  w : Nat
  h : Nat
  isWindows : Bool
deriving Repr, DecidableEq

/-- The state built by `FPaper_Extract.__init__`: empty buffers, every flag
false, and `__w__, __h__ = get_terminal_size()` (rows first, then cols). -/
def mkExtract (termSize : Nat × Nat) (isWindows : Bool) : ExtractState :=
  { extracted_text := []
    get_align_text := []
    is_start_marker := false
    is_start_marker_2 := false
    is_start_marker_3 := false
    is_start_marker_4 := false
    is_start_marker_5 := false
    is_start_marker_6 := false
    is_start_of_text := false
    is_end_of_text := false
    is_style_marker := false
    is_align := false
    is_left_align := false
    is_center_align := false
    is_right_align := false
    is_reset_align := false
    w := termSize.1
    h := termSize.2
    isWindows := isWindows }

/-- Method `FPaper_Extract.left`: append the text, then `width` spaces. -/
def left (s : ExtractState) (width : Nat) (text : List Nat) : ExtractState :=
  { s with extracted_text := s.extracted_text ++ text ++ List.replicate width 32 }

/-- Method `FPaper_Extract.center`: `width` spaces, the text, `width` spaces. -/
def center (s : ExtractState) (width : Nat) (text : List Nat) : ExtractState :=
  { s with extracted_text :=
      s.extracted_text ++ List.replicate width 32 ++ text ++ List.replicate width 32 }

/-- Method `FPaper_Extract.right`: `width * 2` spaces, then the text. -/
def right (s : ExtractState) (width : Nat) (text : List Nat) : ExtractState :=
  { s with extracted_text := s.extracted_text ++ List.replicate (width * 2) 32 ++ text }

/-- Method `FPaper_Extract.detect_style`: decode one style-argument byte.
Chain of shortcut checks, then the alignment controls, then the colour reset,
and finally the generic branch which utf-8-decodes the byte (`none` models the
`UnicodeDecodeError` raised on a byte of 128 or more) and emits an escape
sequence for values in 40..49 or 100..109. -/
def detect_style (s : ExtractState) (ch : Nat) : Option ExtractState :=
  if ch = LIGHT_SET then
    some { s with extracted_text := s.extracted_text ++ [27, 91, 48, 109] }
  else if ch = BOLD_SET then
    some { s with extracted_text := s.extracted_text ++ [27, 91, 49, 109] }
  else if ch = DIM_SET then
    some { s with extracted_text := s.extracted_text ++ [27, 91, 50, 109] }
  else if ch = ITALIC_SET then
    some { s with extracted_text := s.extracted_text ++ [27, 91, 51, 109] }
  else if ch = UNDERLINED_SET then
    some { s with extracted_text := s.extracted_text ++ [27, 91, 52, 109] }
  else if ch = BLINK_SET then
    some { s with extracted_text := s.extracted_text ++ [27, 91, 53, 109] }
  else if ch = RAPID_BLINK_SET then
    some (if s.isWindows then
      { s with extracted_text := s.extracted_text ++ [27, 91, 54, 109] }
    else s)
  else if ch = ALIGN_LEFT_SET then
    some { s with is_align := true, is_right_align := false, is_center_align := false,
                  is_reset_align := false, is_left_align := true }
  else if ch = ALIGN_CENTER_SET then
    some { s with is_align := true, is_right_align := false, is_left_align := false,
                  is_reset_align := false, is_center_align := true }
  else if ch = ALIGN_RIGHT_SET then
    some { s with is_align := true, is_center_align := false, is_left_align := false,
                  is_reset_align := false, is_right_align := true }
  else if ch = ALIGN_RESET then
    let s' :=
      if s.is_center_align then center s s.w s.get_align_text
      else if s.is_left_align then left s s.w s.get_align_text
      else if s.is_right_align then right s s.w s.get_align_text
      else s
    some { s' with is_align := false, is_center_align := false, is_left_align := false,
                   is_reset_align := false, is_right_align := false, get_align_text := [] }
  else if ch = COLOR_RESET then
    some { s with extracted_text := s.extracted_text ++ [27, 91, 48, 109] }
  else
    if ch < 128 then
      if (40 ≤ ch ∧ ch ≤ 49) ∨ (100 ≤ ch ∧ ch ≤ 109) then
        some { s with extracted_text :=
          s.extracted_text ++ [27, 91] ++ natDecimal (ch - 10) ++ [109] }
      else some s
    else none

/-- Method `FPaper_Extract.detect`: process one byte.  A pending style marker
diverts the byte to `detect_style` (clearing the flag afterwards); otherwise
the elif chain advances the first unset prologue flag (setting it to the
byte-equality result, so a mismatch leaves it false), then awaits the
start-of-text byte, and finally handles the text region (style marker,
end-of-text, or a literal byte routed to the alignment scratch buffer or the
extracted text; `none` models the utf-8 error on a byte of 128 or more). -/
def detect (s : ExtractState) (ch : Nat) : Option ExtractState :=
  if s.is_style_marker then
    (detect_style s ch).map fun s' => { s' with is_style_marker := false }
  else if !s.is_start_marker then
    some { s with is_start_marker := decide (ch = START_MARKER) }
  else if !s.is_start_marker_2 then
    some { s with is_start_marker_2 := decide (ch = START_MARKER_2) }
  else if !s.is_start_marker_3 then
    some { s with is_start_marker_3 := decide (ch = START_MARKER_3) }
  else if !s.is_start_marker_4 then
    some { s with is_start_marker_4 := decide (ch = START_MARKER_4) }
  else if !s.is_start_marker_5 then
    some { s with is_start_marker_5 := decide (ch = START_MARKER_5) }
  else if !s.is_start_marker_6 then
    some { s with is_start_marker_6 := decide (ch = START_MARKER_6) }
  else if !s.is_start_of_text then
    some { s with is_start_of_text := decide (ch = START_OF_TEXT) }
  else
    if ch = STYLE_MARKER then
      some { s with is_style_marker := true }
    else if ch = END_OF_TEXT then
      some { s with is_end_of_text := true }
    else if s.is_align then
      if ch < 128 then some { s with get_align_text := s.get_align_text ++ [ch] }
      else none
    else
      if ch < 128 then some { s with extracted_text := s.extracted_text ++ [ch] }
      else none

/-- The read loop of `FPaper_Extract.extract`: one byte at a time, breaking
before processing a byte once `is_end_of_text` is set; `none` propagates a
raised decode error. -/
def extractLoop : ExtractState → List Nat → Option ExtractState
  | s, [] => some s
  | s, b :: bs =>
    if s.is_end_of_text then some s
    else (detect s b).bind fun s' => extractLoop s' bs

/-- Method `FPaper_Extract.extract` on a stream of bytes: run the loop from
the freshly constructed state and return `extracted_text` (the alignment
scratch buffer is not part of the result). -/
def extract (termSize : Nat × Nat) (isWindows : Bool) (stream : List Nat) :
    Option (List Nat) :=
  (extractLoop (mkExtract termSize isWindows) stream).map ExtractState.extracted_text

/-- The six prologue byte values, in the order the stage flags expect them. -/
def prologue : List Nat := [0x02, 0x46, 0x50, 0x61, 0x67, 0x65]

/-- The prologue stage flag of index `j` (0-based) of an extraction state. -/
def markerFlag (s : ExtractState) : Nat → Bool
  | 0 => s.is_start_marker
  | 1 => s.is_start_marker_2
  | 2 => s.is_start_marker_3
  | 3 => s.is_start_marker_4
  | 4 => s.is_start_marker_5
  | 5 => s.is_start_marker_6
  | _ => true

/-- A state stalled at prologue stage `i`: every stage flag from `i` on is
still unset, the decoder has not reached the text region, and nothing has
been extracted. -/
def stalledState (i : Nat) (s : ExtractState) : Prop :=
  (∀ j, i ≤ j → j < 6 → markerFlag s j = false) ∧
  s.is_start_of_text = false ∧ s.is_style_marker = false ∧
  s.is_end_of_text = false ∧ s.extracted_text = []

/-- A state inside the text region with an alignment mode active and the
end-of-text flag unset (the pending-style-argument flag is unconstrained). -/
def alignedActive (s : ExtractState) : Prop :=
  s.is_start_marker = true ∧ s.is_start_marker_2 = true ∧
  s.is_start_marker_3 = true ∧ s.is_start_marker_4 = true ∧
  s.is_start_marker_5 = true ∧ s.is_start_marker_6 = true ∧
  s.is_start_of_text = true ∧ s.is_end_of_text = false ∧ s.is_align = true

/-- Code points that can occur inside an emitted ANSI escape sequence:
ESC, the opening bracket, the letter m, and the decimal digits. -/
def escByte (b : Nat) : Prop :=
  b = 27 ∨ b = 91 ∨ b = 109 ∨ (48 ≤ b ∧ b ≤ 57)

instance (b : Nat) : Decidable (escByte b) :=
  decidable_of_iff (b = 27 ∨ b = 91 ∨ b = 109 ∨ (48 ≤ b ∧ b ≤ 57)) Iff.rfl

/-- A sample extraction state inside the text region with Left alignment
active and one byte already in each buffer, used to exercise the alignment
behaviour on concrete input. -/
def alignedSample : ExtractState :=
  { mkExtract (3, 4) false with
      is_start_marker := true, is_start_marker_2 := true, is_start_marker_3 := true,
      is_start_marker_4 := true, is_start_marker_5 := true, is_start_marker_6 := true,
      is_start_of_text := true, is_align := true, is_left_align := true,
      extracted_text := [65], get_align_text := [104] }

/-- The viewport counters of a `Totem` pager: `__up__` (the top offset),
`__down__` (a Python float, modelled exactly over `ℚ`), and
`__full_length__` (the total line count). -/
structure TotemState where
  up : Int
  down : ℚ
  full_length : Int
deriving Repr, DecidableEq

/-- One key action of the `Totem.init_buffer` loop, keyed on the third byte
read: the letter A decrements both counters when `1 ≤ __up__`, the letter B
increments both when `__down__ < __full_length__`, anything else is ignored. -/
def keyStep (s : TotemState) (ch : Nat) : TotemState :=
  if ch = 65 then
    if 1 ≤ s.up then { s with up := s.up - 1, down := s.down - 1 } else s
  else if ch = 66 then
    if s.down < (s.full_length : ℚ) then { s with down := s.down + 1, up := s.up + 1 }
    else s
  else s

/-- The viewport state at entry of the key loop: `__up__ = 0`,
`__down__ = __h__ / 3.95` where `__h__` is the second component of
`get_terminal_size()` (the column count), and `__full_length__` the number of
lines of the decoded buffer. -/
def loopStart (lines : Nat) (termSize : Nat × Nat) : TotemState :=
  { up := 0, down := (termSize.2 : ℚ) / 3.95, full_length := (lines : Int) }

/-- The viewport states the key loop can reach from its entry state. -/
inductive Reachable (lines : Nat) (termSize : Nat × Nat) : TotemState → Prop where
  | init : Reachable lines termSize (loopStart lines termSize)
  | step (ch : Nat) (s : TotemState) :
      Reachable lines termSize s → Reachable lines termSize (keyStep s ch)

/-- The quit test `ch.lower() == 'q'` on a byte. -/
def lowerIsQ (ch : Nat) : Bool := (ch == 113) || (ch == 81)

/-- Outcome of one pass of the `Totem.init_buffer` while-loop body on a queue
of pending input bytes: the loop breaks on q/Q, blocks forever when a read
has no byte to return, and otherwise continues with an updated state. -/
inductive LoopEvent where
  | quit : LoopEvent
  | blocked : LoopEvent
  | next (s : TotemState) (rest : List Nat) : LoopEvent
deriving Repr, DecidableEq

/-- One pass of the `Totem.init_buffer` while-loop body: read one byte; on
q/Q break; otherwise unconditionally read two further bytes and act on the
third via `keyStep`. -/
def dispatch (s : TotemState) : List Nat → LoopEvent
  | [] => .blocked
  | ch :: rest =>
    if lowerIsQ ch then .quit
    else
      match rest with
      | _ :: ch3 :: rest2 => .next (keyStep s ch3) rest2
      | _ => .blocked

theorem natDecimal_32 : natDecimal 32 = [51, 50] := by decide

theorem natDecimal_95 : natDecimal 95 = [57, 53] := by decide

/-- Claim C7: decoding the stream consisting of the 6-byte prologue, the
start-of-text byte, the literal byte A, the style-marker byte, the
bold-shortcut byte, the literal byte B, and the end-of-text byte yields
exactly the buffer A, ESC, [, 1, m, B — for any terminal size and platform. -/
theorem C7_end_to_end (termSize : Nat × Nat) (win : Bool) :
    extract termSize win
      [0x02, 0x46, 0x50, 0x61, 0x67, 0x65, 0x26, 65, 0x1A, 0x31, 66, 0x15] =
      some [65, 27, 91, 49, 109, 66] := rfl

/-- Claim C2 (counterexample): the style-argument byte value 50 is the dim
shortcut byte (DIM_SET = 0x32), so it appends the escape sequence ESC[2m —
it does not produce "no escape sequence" as the claim states. -/
theorem C2_counterexample_dim_byte :
    (detect_style (mkExtract (3, 4) false) 50).map ExtractState.extracted_text
      = some [27, 91, 50, 109] ∧ ([27, 91, 50, 109] : List Nat) ≠ [] := by decide

/-- Claim C2 (amended): a style argument of 42 appends ESC[32m and 105
appends ESC[95m via the generic SGR mapping, but 50 is the dim shortcut and
appends ESC[2m (it is DIM_SET, checked before the generic ranges). -/
theorem C2_amended (s : ExtractState) :
    (detect_style s 42).map ExtractState.extracted_text
      = some (s.extracted_text ++ [27, 91, 51, 50, 109]) ∧
    (detect_style s 105).map ExtractState.extracted_text
      = some (s.extracted_text ++ [27, 91, 57, 53, 109]) ∧
    (detect_style s 50).map ExtractState.extracted_text
      = some (s.extracted_text ++ [27, 91, 50, 109]) := by
  refine ⟨?_, ?_, ?_⟩ <;>
    simp [detect_style, natDecimal_32, natDecimal_95, LIGHT_SET, BOLD_SET, DIM_SET,
      ITALIC_SET, UNDERLINED_SET, BLINK_SET, RAPID_BLINK_SET, ALIGN_LEFT_SET,
      ALIGN_CENTER_SET, ALIGN_RIGHT_SET, ALIGN_RESET, COLOR_RESET]

/-- Claim C4 (counterexample): decoding the Left-alignment document over a
terminal of 2 rows and 3 columns yields the text followed by 2 spaces (the
row count), not the 3 spaces the claim's column count requires. -/
theorem C4_counterexample_rows_not_cols :
    extract (2, 3) false [2, 70, 80, 97, 103, 101, 38, 26, 123, 104, 105, 26, 126, 21]
      = some [104, 105, 32, 32] ∧
    some [104, 105, 32, 32] ≠ some ([104, 105] ++ List.replicate 3 32) := by decide

/-- Claim C4 (amended): the Left-alignment round-trip document decodes to the
characters h, i followed by exactly `rows` space characters, where `rows` is
the FIRST component of the terminal size (the row count) — the source binds
`__w__` to it — for every terminal size. -/
theorem C4_amended (rows cols : Nat) :
    extract (rows, cols) false
      [2, 70, 80, 97, 103, 101, 38, 26, 123, 104, 105, 26, 126, 21] =
      some ([104, 105] ++ List.replicate rows 32) := rfl

/-- Claim C1 (counterexample): a text-region byte of value 200 (not valid as
a lone UTF-8 byte) makes `detect` raise a UnicodeDecodeError — modelled as
`none` — so decode does not complete normally on arbitrary byte values. -/
theorem C1_counterexample_raises :
    extract (3, 4) false [2, 70, 80, 97, 103, 101, 38, 200] = none := by decide

/-- Claim C3 (counterexample): the stream whose byte at prologue position 0
is wrong (0 instead of 2) but whose remaining bytes re-supply the full
prologue, start-of-text, and a literal A decodes to a NON-empty buffer: a
wrong prologue byte only stalls the stage, it does not prevent the in-text
state when the expected byte appears later. -/
theorem C3_counterexample_recovery :
    extract (3, 4) false [0, 2, 70, 80, 97, 103, 101, 38, 65] = some [65] ∧
    some [65] ≠ some ([] : List Nat) := by decide

/-- Claim C6 (counterexample): from the loop's entry viewport state, the key
bytes x, y, B — none of which is q/Q and which contain no escape sequence —
are all three consumed by a single loop pass and the viewport scrolls down: a
non-arrow key neither leaves the state unchanged nor consumes a single read. -/
theorem C6_counterexample_three_reads :
    dispatch (loopStart 21 (5, 79)) [120, 121, 66] = .next ⟨1, 21, 21⟩ [] ∧
    (⟨1, 21, 21⟩ : TotemState) ≠ loopStart 21 (5, 79) := by
  have h : loopStart 21 (5, 79) = ⟨0, 20, 21⟩ := by
    simp only [loopStart]; norm_num
  rw [h]
  constructor
  · simp only [dispatch, lowerIsQ, keyStep]
    norm_num
  · simp only [ne_eq, TotemState.mk.injEq]
    norm_num

/-- Claim C6 (amended): every loop pass whose first key is not q/Q consumes
exactly three blocking reads, whatever the bytes are; the second byte is
discarded and only the third selects the action, and a third byte that is
neither A nor B leaves the viewport state unchanged. -/
theorem C6_amended (s : TotemState) (c c2 c3 : Nat) (rest : List Nat)
    (hq : lowerIsQ c = false) :
    dispatch s (c :: c2 :: c3 :: rest) = .next (keyStep s c3) rest ∧
    (c3 ≠ 65 → c3 ≠ 66 → keyStep s c3 = s) := by
  constructor
  · simp [dispatch, hq]
  · intro h65 h66
    simp [keyStep, h65, h66]

/-- Claim C6 (witness): the amended statement applied at the concrete keys
x, y, C from a loop entry state. -/
theorem C6_witness :
    lowerIsQ 120 = false ∧
    dispatch (loopStart 1 (2, 4)) [120, 121, 67]
      = .next (keyStep (loopStart 1 (2, 4)) 67) [] ∧
    keyStep (loopStart 1 (2, 4)) 67 = loopStart 1 (2, 4) := by
  have h := C6_amended (loopStart 1 (2, 4)) 120 121 67 [] (by decide)
  exact ⟨by decide, h.1, h.2 (by decide) (by decide)⟩

/-- Claim C5 (counterexample): with 21 lines and 79 columns the state with
top offset 1 is reachable (one Down-arrow from the entry state), and a
further Down-arrow leaves it unchanged even though top = 1 < 21 = totalLines:
the increment is not guarded by the comparison of top against totalLines. -/
theorem C5_counterexample_guard :
    Reachable 21 (5, 79) ⟨1, 21, 21⟩ ∧
    keyStep ⟨1, 21, 21⟩ 66 = ⟨1, 21, 21⟩ ∧ (1 : Int) < 21 := by
  refine ⟨?_, ?_, by norm_num⟩
  · have h : keyStep (loopStart 21 (5, 79)) 66 = ⟨1, 21, 21⟩ := by
      have hls : loopStart 21 (5, 79) = ⟨0, 20, 21⟩ := by
        simp only [loopStart]; norm_num
      rw [hls]
      simp only [keyStep]
      norm_num
    exact h ▸ Reachable.step 66 _ Reachable.init
  · simp only [keyStep]
    norm_num

/-- Invariant of the key loop: the top offset stays within 0..totalLines, the
total line count is constant, and `__down__` always equals
`__up__ + __h__ / 3.95`. -/
theorem reachable_inv (lines : Nat) (termSize : Nat × Nat) (s : TotemState)
    (h : Reachable lines termSize s) :
    0 ≤ s.up ∧ s.up ≤ s.full_length ∧ s.full_length = (lines : Int) ∧
    s.down = (s.up : ℚ) + (termSize.2 : ℚ) / 3.95 := by
  induction h with
  | init =>
    refine ⟨le_refl 0, Int.natCast_nonneg lines, rfl, ?_⟩
    simp [loopStart]
  | step ch s0 h ih =>
    obtain ⟨h0, hle, hfull, hdown⟩ := ih
    have hwh : (0 : ℚ) ≤ (termSize.2 : ℚ) / 3.95 := by positivity
    unfold keyStep
    split_ifs with hA hup hB hdn
    · dsimp only
      refine ⟨by omega, by omega, hfull, ?_⟩
      rw [hdown]
      push_cast
      ring
    · exact ⟨h0, hle, hfull, hdown⟩
    · dsimp only
      have hql : (s0.up : ℚ) < (s0.full_length : ℚ) := by
        calc (s0.up : ℚ) ≤ (s0.up : ℚ) + (termSize.2 : ℚ) / 3.95 := by linarith
          _ = s0.down := hdown.symm
          _ < (s0.full_length : ℚ) := hdn
      have hil : s0.up < s0.full_length := by exact_mod_cast hql
      refine ⟨by omega, by omega, hfull, ?_⟩
      rw [hdown]
      push_cast
      ring
    · exact ⟨h0, hle, hfull, hdown⟩
    · exact ⟨h0, hle, hfull, hdown⟩

/-- Claim C8: in every viewport state reachable by the keyboard loop from its
entry state (top offset 0), the invariant 0 ≤ top ≤ totalLines holds; the
decoder plays no part (an `ExtractState` carries no viewport fields and
`Reachable` is generated by `keyStep` alone). -/
theorem C8_invariant (lines : Nat) (termSize : Nat × Nat) (s : TotemState)
    (h : Reachable lines termSize s) :
    0 ≤ s.up ∧ s.up ≤ s.full_length := by
  obtain ⟨h0, hle, _, _⟩ := reachable_inv lines termSize s h
  exact ⟨h0, hle⟩

/-- Claim C8 (witness): the invariant at the loop's entry state. -/
theorem C8_witness :
    Reachable 1 (2, 4) (loopStart 1 (2, 4)) ∧
    0 ≤ (loopStart 1 (2, 4)).up ∧
    (loopStart 1 (2, 4)).up ≤ (loopStart 1 (2, 4)).full_length :=
  ⟨Reachable.init, C8_invariant 1 (2, 4) (loopStart 1 (2, 4)) Reachable.init⟩

/-- Claim C5 (amended): in every reachable viewport state, a Down-arrow
increments the top offset by one exactly when `__down__ < __full_length__`,
that is when top + windowHeight < totalLines (windowHeight = cols / 3.95) —
not when top < totalLines; in particular at top = totalLines a further
Down-arrow leaves the state unchanged. -/
theorem C5_amended (lines : Nat) (termSize : Nat × Nat) (s : TotemState)
    (h : Reachable lines termSize s) :
    (s.down < (s.full_length : ℚ) →
        keyStep s 66 = { s with up := s.up + 1, down := s.down + 1 }) ∧
    (¬ s.down < (s.full_length : ℚ) → keyStep s 66 = s) ∧
    (s.up = s.full_length → keyStep s 66 = s) := by
  obtain ⟨h0, hle, hfull, hdown⟩ := reachable_inv lines termSize s h
  refine ⟨?_, ?_, ?_⟩
  · intro hlt
    simp [keyStep, hlt]
  · intro hge
    simp [keyStep, hge]
  · intro heq
    have hwh : (0 : ℚ) ≤ (termSize.2 : ℚ) / 3.95 := by positivity
    have hge : ¬ s.down < (s.full_length : ℚ) := by
      rw [hdown, heq]
      linarith
    simp [keyStep, hge]

/-- Claim C5 (witness): the amended statement at the entry state for 5 lines
and 4 columns, where `__down__` = 4 / 3.95 < 5 and the Down-arrow scrolls. -/
theorem C5_witness :
    Reachable 5 (2, 4) (loopStart 5 (2, 4)) ∧
    keyStep (loopStart 5 (2, 4)) 66
      = { loopStart 5 (2, 4) with up := (loopStart 5 (2, 4)).up + 1,
                                  down := (loopStart 5 (2, 4)).down + 1 } := by
  have h := C5_amended 5 (2, 4) (loopStart 5 (2, 4)) Reachable.init
  refine ⟨Reachable.init, h.1 ?_⟩
  simp only [loopStart]
  norm_num

theorem prefix2 (l A B : List Nat) : l <+: (l ++ A) ++ B :=
  (List.prefix_append l A).trans (List.prefix_append (l ++ A) B)

theorem prefix3 (l A B C : List Nat) : l <+: ((l ++ A) ++ B) ++ C :=
  (prefix2 l A B).trans (List.prefix_append ((l ++ A) ++ B) C)

/-- Every style-argument byte below 128 is decoded by `detect_style` without
raising (the generic branch's utf-8 decode succeeds). -/
theorem detect_style_total (s : ExtractState) (b : Nat) (hb : b < 128) :
    ∃ s', detect_style s b = some s' := by
  interval_cases b <;> exact ⟨_, rfl⟩

/-- A successful `detect_style` step only ever appends to the extracted
text. -/
theorem detect_style_shape (s : ExtractState) (b : Nat) (s1 : ExtractState)
    (h : detect_style s b = some s1) :
    s.extracted_text <+: s1.extracted_text := by
  by_cases hb126 : b = 126
  · subst hb126
    simp only [detect_style, LIGHT_SET, BOLD_SET, DIM_SET, ITALIC_SET, UNDERLINED_SET,
      BLINK_SET, RAPID_BLINK_SET, ALIGN_LEFT_SET, ALIGN_CENTER_SET, ALIGN_RIGHT_SET,
      ALIGN_RESET, COLOR_RESET] at h
    norm_num at h
    subst h
    rcases hc : s.is_center_align with _ | _ <;>
      rcases hl : s.is_left_align with _ | _ <;>
        rcases hr : s.is_right_align with _ | _ <;>
          simp only [hc, hl, hr, Bool.false_eq_true, if_false, if_true, eq_self_iff_true,
            center, left, right] <;>
          first
            | exact List.prefix_refl _
            | exact List.prefix_append _ _
            | exact prefix2 _ _ _
            | exact prefix3 _ _ _ _
  · by_cases hb : b < 128
    · interval_cases b <;>
        first
          | omega
          | (injection h with h
             subst h
             first
               | exact List.prefix_refl _
               | exact List.prefix_append _ _
               | exact prefix2 _ _ _
               | exact prefix3 _ _ _ _
               | (rcases hw : s.isWindows with _ | _ <;>
                    simp only [hw, Bool.false_eq_true, if_false, if_true] <;>
                    first
                      | exact List.prefix_refl _
                      | exact List.prefix_append _ _))
    · simp only [detect_style, LIGHT_SET, BOLD_SET, DIM_SET, ITALIC_SET, UNDERLINED_SET,
        BLINK_SET, RAPID_BLINK_SET, ALIGN_LEFT_SET, ALIGN_CENTER_SET, ALIGN_RIGHT_SET,
        ALIGN_RESET, COLOR_RESET] at h
      iterate 12 rw [if_neg (by omega)] at h
      rw [if_neg hb] at h
      exact Option.noConfusion h
/-- Case analysis of one `detect` step: every successful step only appends to
the extracted text, and every byte below 128 is processed without error. -/
theorem detect_branches (s : ExtractState) (b : Nat) :
    (∀ s1, detect s b = some s1 → s.extracted_text <+: s1.extracted_text) ∧
    (b < 128 → ∃ s', detect s b = some s') := by
  have hE : END_OF_TEXT ≠ STYLE_MARKER := by decide
  by_cases h0 : s.is_style_marker = true
  · constructor
    · intro s1 h
      unfold detect at h
      rw [if_pos h0] at h
      rcases hds : detect_style s b with _ | s2
      · rw [hds] at h
        exact Option.noConfusion h
      · rw [hds, Option.map_some', Option.some.injEq] at h
        subst h
        exact detect_style_shape s b s2 hds
    · intro hb
      obtain ⟨s2, hs2⟩ := detect_style_total s b hb
      exact ⟨{ s2 with is_style_marker := false }, by
        unfold detect
        rw [if_pos h0, hs2, Option.map_some']⟩
  · have h0f : s.is_style_marker = false := by
      rwa [Bool.not_eq_true] at h0
    rcases h1 : s.is_start_marker with _ | _
    ·
      constructor
      · intro s1 h
        simp only [detect, h0f, Bool.not_true, Bool.not_false, Bool.false_eq_true, if_false, if_true, eq_self_iff_true, h1] at h
        rw [Option.some.injEq] at h
        subst h
        exact List.prefix_refl _
      · intro hb
        exact ⟨{ s with is_start_marker := decide (b = START_MARKER) },
          by simp only [detect, h0f, Bool.not_true, Bool.not_false, Bool.false_eq_true, if_false, if_true, eq_self_iff_true, h1]⟩
    ·
      rcases h2 : s.is_start_marker_2 with _ | _
      ·
        constructor
        · intro s1 h
          simp only [detect, h0f, Bool.not_true, Bool.not_false, Bool.false_eq_true, if_false, if_true, eq_self_iff_true, h1, h2] at h
          rw [Option.some.injEq] at h
          subst h
          exact List.prefix_refl _
        · intro hb
          exact ⟨{ s with is_start_marker_2 := decide (b = START_MARKER_2) },
            by simp only [detect, h0f, Bool.not_true, Bool.not_false, Bool.false_eq_true, if_false, if_true, eq_self_iff_true, h1, h2]⟩
      ·
        rcases h3 : s.is_start_marker_3 with _ | _
        ·
          constructor
          · intro s1 h
            simp only [detect, h0f, Bool.not_true, Bool.not_false, Bool.false_eq_true, if_false, if_true, eq_self_iff_true, h1, h2, h3] at h
            rw [Option.some.injEq] at h
            subst h
            exact List.prefix_refl _
          · intro hb
            exact ⟨{ s with is_start_marker_3 := decide (b = START_MARKER_3) },
              by simp only [detect, h0f, Bool.not_true, Bool.not_false, Bool.false_eq_true, if_false, if_true, eq_self_iff_true, h1, h2, h3]⟩
        ·
          rcases h4 : s.is_start_marker_4 with _ | _
          ·
            constructor
            · intro s1 h
              simp only [detect, h0f, Bool.not_true, Bool.not_false, Bool.false_eq_true, if_false, if_true, eq_self_iff_true, h1, h2, h3, h4] at h
              rw [Option.some.injEq] at h
              subst h
              exact List.prefix_refl _
            · intro hb
              exact ⟨{ s with is_start_marker_4 := decide (b = START_MARKER_4) },
                by simp only [detect, h0f, Bool.not_true, Bool.not_false, Bool.false_eq_true, if_false, if_true, eq_self_iff_true, h1, h2, h3, h4]⟩
          ·
            rcases h5 : s.is_start_marker_5 with _ | _
            ·
              constructor
              · intro s1 h
                simp only [detect, h0f, Bool.not_true, Bool.not_false, Bool.false_eq_true, if_false, if_true, eq_self_iff_true, h1, h2, h3, h4, h5] at h
                rw [Option.some.injEq] at h
                subst h
                exact List.prefix_refl _
              · intro hb
                exact ⟨{ s with is_start_marker_5 := decide (b = START_MARKER_5) },
                  by simp only [detect, h0f, Bool.not_true, Bool.not_false, Bool.false_eq_true, if_false, if_true, eq_self_iff_true, h1, h2, h3, h4, h5]⟩
            ·
              rcases h6 : s.is_start_marker_6 with _ | _
              ·
                constructor
                · intro s1 h
                  simp only [detect, h0f, Bool.not_true, Bool.not_false, Bool.false_eq_true, if_false, if_true, eq_self_iff_true, h1, h2, h3, h4, h5, h6] at h
                  rw [Option.some.injEq] at h
                  subst h
                  exact List.prefix_refl _
                · intro hb
                  exact ⟨{ s with is_start_marker_6 := decide (b = START_MARKER_6) },
                    by simp only [detect, h0f, Bool.not_true, Bool.not_false, Bool.false_eq_true, if_false, if_true, eq_self_iff_true, h1, h2, h3, h4, h5, h6]⟩
              ·
                rcases h7 : s.is_start_of_text with _ | _
                ·
                  constructor
                  · intro s1 h
                    simp only [detect, h0f, Bool.not_true, Bool.not_false, Bool.false_eq_true, if_false, if_true, eq_self_iff_true, h1, h2, h3, h4, h5, h6, h7] at h
                    rw [Option.some.injEq] at h
                    subst h
                    exact List.prefix_refl _
                  · intro hb
                    exact ⟨{ s with is_start_of_text := decide (b = START_OF_TEXT) },
                      by simp only [detect, h0f, Bool.not_true, Bool.not_false, Bool.false_eq_true, if_false, if_true, eq_self_iff_true, h1, h2, h3, h4, h5, h6, h7]⟩
                ·
                  by_cases hb26 : b = STYLE_MARKER
                  ·
                    constructor
                    · intro s1 h
                      simp only [detect, h0f, Bool.not_true, Bool.not_false, Bool.false_eq_true, if_false, if_true, eq_self_iff_true, h1, h2, h3, h4, h5, h6, h7, hb26] at h
                      rw [Option.some.injEq] at h
                      subst h
                      exact List.prefix_refl _
                    · intro hb
                      exact ⟨{ s with is_style_marker := true },
                        by simp only [detect, h0f, Bool.not_true, Bool.not_false, Bool.false_eq_true, if_false, if_true, eq_self_iff_true, h1, h2, h3, h4, h5, h6, h7, hb26]⟩
                  · by_cases hb21 : b = END_OF_TEXT
                    ·
                      constructor
                      · intro s1 h
                        simp only [detect, h0f, Bool.not_true, Bool.not_false, Bool.false_eq_true, if_false, if_true, eq_self_iff_true, h1, h2, h3, h4, h5, h6, h7, hb26, hb21, hE] at h
                        rw [Option.some.injEq] at h
                        subst h
                        exact List.prefix_refl _
                      · intro hb
                        exact ⟨{ s with is_end_of_text := true },
                          by simp only [detect, h0f, Bool.not_true, Bool.not_false, Bool.false_eq_true, if_false, if_true, eq_self_iff_true, h1, h2, h3, h4, h5, h6, h7, hb26, hb21, hE]⟩
                    · rcases hal : s.is_align with _ | _
                      · by_cases hb : b < 128
                        ·
                          constructor
                          · intro s1 h
                            simp only [detect, h0f, Bool.not_true, Bool.not_false, Bool.false_eq_true, if_false, if_true, eq_self_iff_true, h1, h2, h3, h4, h5, h6, h7, hal, hb26, hb21, hb] at h
                            rw [Option.some.injEq] at h
                            subst h
                            exact List.prefix_append _ _
                          · intro hb
                            exact ⟨{ s with extracted_text := s.extracted_text ++ [b] },
                              by simp only [detect, h0f, Bool.not_true, Bool.not_false, Bool.false_eq_true, if_false, if_true, eq_self_iff_true, h1, h2, h3, h4, h5, h6, h7, hal, hb26, hb21, hb]⟩
                        ·
                          constructor
                          · intro s1 h
                            simp only [detect, h0f, Bool.not_true, Bool.not_false, Bool.false_eq_true, if_false, if_true, eq_self_iff_true, h1, h2, h3, h4, h5, h6, h7, hal, hb26, hb21, hb] at h
                            exact Option.noConfusion h
                          · intro hbc
                            exact absurd hbc hb
                      · by_cases hb : b < 128
                        ·
                          constructor
                          · intro s1 h
                            simp only [detect, h0f, Bool.not_true, Bool.not_false, Bool.false_eq_true, if_false, if_true, eq_self_iff_true, h1, h2, h3, h4, h5, h6, h7, hal, hb26, hb21, hb] at h
                            rw [Option.some.injEq] at h
                            subst h
                            exact List.prefix_refl _
                          · intro hb
                            exact ⟨{ s with get_align_text := s.get_align_text ++ [b] },
                              by simp only [detect, h0f, Bool.not_true, Bool.not_false, Bool.false_eq_true, if_false, if_true, eq_self_iff_true, h1, h2, h3, h4, h5, h6, h7, hal, hb26, hb21, hb]⟩
                        ·
                          constructor
                          · intro s1 h
                            simp only [detect, h0f, Bool.not_true, Bool.not_false, Bool.false_eq_true, if_false, if_true, eq_self_iff_true, h1, h2, h3, h4, h5, h6, h7, hal, hb26, hb21, hb] at h
                            exact Option.noConfusion h
                          · intro hbc
                            exact absurd hbc hb

/-- The read loop completes without error on any all-ASCII byte stream. -/
theorem extractLoop_total (stream : List Nat) :
    ∀ s : ExtractState, (∀ b ∈ stream, b < 128) →
    ∃ s', extractLoop s stream = some s' := by
  induction stream with
  | nil => exact fun s _ => ⟨s, rfl⟩
  | cons b bs ih =>
    intro s hb
    rcases hend : s.is_end_of_text with _ | _
    · obtain ⟨s1, hs1⟩ := (detect_branches s b).2 (hb b (List.mem_cons_self b bs))
      obtain ⟨s2, hs2⟩ := ih s1 fun x hx => hb x (List.mem_cons_of_mem b hx)
      refine ⟨s2, ?_⟩
      simp only [extractLoop, hend, Bool.false_eq_true, if_false]
      rw [hs1, Option.some_bind]
      exact hs2
    · exact ⟨s, by simp [extractLoop, hend]⟩

/-- Across any run of the read loop the extracted text only grows. -/
theorem extractLoop_shape (stream : List Nat) :
    ∀ s s' : ExtractState, extractLoop s stream = some s' →
    s.extracted_text <+: s'.extracted_text := by
  induction stream with
  | nil =>
    intro s s' h
    rw [extractLoop, Option.some.injEq] at h
    subst h
    exact List.prefix_refl _
  | cons b bs ih =>
    intro s s' h
    rcases hend : s.is_end_of_text with _ | _
    · simp only [extractLoop, hend, Bool.false_eq_true, if_false] at h
      rcases hdet : detect s b with _ | s1
      · rw [hdet, Option.none_bind] at h
        exact Option.noConfusion h
      · rw [hdet, Option.some_bind] at h
        exact ((detect_branches s b).1 s1 hdet).trans (ih s1 s' h)
    · simp only [extractLoop, hend, if_true] at h
      rw [Option.some.injEq] at h
      subst h
      exact List.prefix_refl _

/-- Claim C1 (amended): decode completes normally — and malformed input only
yields an empty or truncated buffer, with unknown marker and argument bytes
dropped — for every byte stream all of whose bytes are below 128 (valid
one-byte UTF-8); a byte of 128 or more reaching the text region or the
generic style-argument branch raises a UnicodeDecodeError (modelled as
`none`), so decode is not exception-free on arbitrary byte values. -/
theorem C1_amended (termSize : Nat × Nat) (win : Bool) (stream : List Nat)
    (hb : ∀ b ∈ stream, b < 128) :
    ∃ out, extract termSize win stream = some out := by
  obtain ⟨s', hs'⟩ := extractLoop_total stream (mkExtract termSize win) hb
  exact ⟨s'.extracted_text, by rw [extract, hs', Option.map_some']⟩

/-- Claim C1 (witness): the amended statement at a concrete ASCII stream. -/
theorem C1_witness :
    (∀ b ∈ [2, 70, 80, 97, 103, 101, 38, 65, 21], b < 128) ∧
    ∃ out, extract (3, 4) false [2, 70, 80, 97, 103, 101, 38, 65, 21] = some out :=
  ⟨by decide, C1_amended (3, 4) false [2, 70, 80, 97, 103, 101, 38, 65, 21] (by decide)⟩

/-- Claim C10: the render buffer is append-only — for every single-byte
`detect` step that completes, the extracted text before the step is a prefix
of the extracted text after the step. -/
theorem C10_append_only (s : ExtractState) (b : Nat) (s' : ExtractState)
    (h : detect s b = some s') :
    s.extracted_text <+: s'.extracted_text :=
  (detect_branches s b).1 s' h

/-- Claim C10 (witness): the append-only property at a concrete step. -/
theorem C10_witness :
    detect (mkExtract (3, 4) false) 2
        = some { mkExtract (3, 4) false with is_start_marker := true } ∧
    (mkExtract (3, 4) false).extracted_text <+:
      ({ mkExtract (3, 4) false with is_start_marker := true } : ExtractState).extracted_text :=
  ⟨by decide, C10_append_only (mkExtract (3, 4) false) 2
    { mkExtract (3, 4) false with is_start_marker := true } (by decide)⟩
/-- One `detect` step from a state stalled at prologue stage `i`, on a byte
that is not the stage's expected prologue byte: the step succeeds, and the
state stays stalled at stage `i` (earlier stages may advance, stage `i` and
everything after it cannot). -/
theorem detect_stalled_step {i : Nat} (hi : i < 6) {s : ExtractState} {b : Nat}
    (hs : stalledState i s) (hb : b ≠ prologue.get ⟨i, hi⟩) :
    ∃ s', detect s b = some s' ∧ stalledState i s' := by
  obtain ⟨hflags, hsot, hsty, hend, hext⟩ := hs
  have hfi := hflags i (le_refl i) hi
  rcases h1 : s.is_start_marker with _ | _
  ·
    refine ⟨{ s with is_start_marker := decide (b = START_MARKER) }, ?_, ?_, hsot, hsty, hend, hext⟩
    · simp only [detect, hsty, h1, Bool.not_true, Bool.not_false, Bool.false_eq_true, if_false, if_true, eq_self_iff_true]
    · intro j hij hj6
      rcases j with _ | _ | _ | _ | _ | _ | j
      · have hik : i = 0 := by omega
        subst hik
        exact decide_eq_false fun hq => hb (hq.trans rfl)
      · exact hflags 1 hij hj6
      · exact hflags 2 hij hj6
      · exact hflags 3 hij hj6
      · exact hflags 4 hij hj6
      · exact hflags 5 hij hj6
      · exact absurd hj6 (by omega)
  ·
    rcases h2 : s.is_start_marker_2 with _ | _
    ·
      refine ⟨{ s with is_start_marker_2 := decide (b = START_MARKER_2) }, ?_, ?_, hsot, hsty, hend, hext⟩
      · simp only [detect, hsty, h1, h2, Bool.not_true, Bool.not_false, Bool.false_eq_true, if_false, if_true, eq_self_iff_true]
      · intro j hij hj6
        rcases j with _ | _ | _ | _ | _ | _ | j
        · exact absurd (hflags 0 hij hj6) (by simp [markerFlag, h1])
        · have hik : i = 1 := by
            rcases Nat.lt_or_ge i 1 with hlt | hge
            · exfalso
              interval_cases i
              all_goals simp [markerFlag, h1] at hfi
            · omega
          subst hik
          exact decide_eq_false fun hq => hb (hq.trans rfl)
        · exact hflags 2 hij hj6
        · exact hflags 3 hij hj6
        · exact hflags 4 hij hj6
        · exact hflags 5 hij hj6
        · exact absurd hj6 (by omega)
    ·
      rcases h3 : s.is_start_marker_3 with _ | _
      ·
        refine ⟨{ s with is_start_marker_3 := decide (b = START_MARKER_3) }, ?_, ?_, hsot, hsty, hend, hext⟩
        · simp only [detect, hsty, h1, h2, h3, Bool.not_true, Bool.not_false, Bool.false_eq_true, if_false, if_true, eq_self_iff_true]
        · intro j hij hj6
          rcases j with _ | _ | _ | _ | _ | _ | j
          · exact absurd (hflags 0 hij hj6) (by simp [markerFlag, h1])
          · exact absurd (hflags 1 hij hj6) (by simp [markerFlag, h2])
          · have hik : i = 2 := by
              rcases Nat.lt_or_ge i 2 with hlt | hge
              · exfalso
                interval_cases i
                all_goals simp [markerFlag, h1, h2] at hfi
              · omega
            subst hik
            exact decide_eq_false fun hq => hb (hq.trans rfl)
          · exact hflags 3 hij hj6
          · exact hflags 4 hij hj6
          · exact hflags 5 hij hj6
          · exact absurd hj6 (by omega)
      ·
        rcases h4 : s.is_start_marker_4 with _ | _
        ·
          refine ⟨{ s with is_start_marker_4 := decide (b = START_MARKER_4) }, ?_, ?_, hsot, hsty, hend, hext⟩
          · simp only [detect, hsty, h1, h2, h3, h4, Bool.not_true, Bool.not_false, Bool.false_eq_true, if_false, if_true, eq_self_iff_true]
          · intro j hij hj6
            rcases j with _ | _ | _ | _ | _ | _ | j
            · exact absurd (hflags 0 hij hj6) (by simp [markerFlag, h1])
            · exact absurd (hflags 1 hij hj6) (by simp [markerFlag, h2])
            · exact absurd (hflags 2 hij hj6) (by simp [markerFlag, h3])
            · have hik : i = 3 := by
                rcases Nat.lt_or_ge i 3 with hlt | hge
                · exfalso
                  interval_cases i
                  all_goals simp [markerFlag, h1, h2, h3] at hfi
                · omega
              subst hik
              exact decide_eq_false fun hq => hb (hq.trans rfl)
            · exact hflags 4 hij hj6
            · exact hflags 5 hij hj6
            · exact absurd hj6 (by omega)
        ·
          rcases h5 : s.is_start_marker_5 with _ | _
          ·
            refine ⟨{ s with is_start_marker_5 := decide (b = START_MARKER_5) }, ?_, ?_, hsot, hsty, hend, hext⟩
            · simp only [detect, hsty, h1, h2, h3, h4, h5, Bool.not_true, Bool.not_false, Bool.false_eq_true, if_false, if_true, eq_self_iff_true]
            · intro j hij hj6
              rcases j with _ | _ | _ | _ | _ | _ | j
              · exact absurd (hflags 0 hij hj6) (by simp [markerFlag, h1])
              · exact absurd (hflags 1 hij hj6) (by simp [markerFlag, h2])
              · exact absurd (hflags 2 hij hj6) (by simp [markerFlag, h3])
              · exact absurd (hflags 3 hij hj6) (by simp [markerFlag, h4])
              · have hik : i = 4 := by
                  rcases Nat.lt_or_ge i 4 with hlt | hge
                  · exfalso
                    interval_cases i
                    all_goals simp [markerFlag, h1, h2, h3, h4] at hfi
                  · omega
                subst hik
                exact decide_eq_false fun hq => hb (hq.trans rfl)
              · exact hflags 5 hij hj6
              · exact absurd hj6 (by omega)
          ·
            rcases h6 : s.is_start_marker_6 with _ | _
            ·
              refine ⟨{ s with is_start_marker_6 := decide (b = START_MARKER_6) }, ?_, ?_, hsot, hsty, hend, hext⟩
              · simp only [detect, hsty, h1, h2, h3, h4, h5, h6, Bool.not_true, Bool.not_false, Bool.false_eq_true, if_false, if_true, eq_self_iff_true]
              · intro j hij hj6
                rcases j with _ | _ | _ | _ | _ | _ | j
                · exact absurd (hflags 0 hij hj6) (by simp [markerFlag, h1])
                · exact absurd (hflags 1 hij hj6) (by simp [markerFlag, h2])
                · exact absurd (hflags 2 hij hj6) (by simp [markerFlag, h3])
                · exact absurd (hflags 3 hij hj6) (by simp [markerFlag, h4])
                · exact absurd (hflags 4 hij hj6) (by simp [markerFlag, h5])
                · have hik : i = 5 := by
                    rcases Nat.lt_or_ge i 5 with hlt | hge
                    · exfalso
                      interval_cases i
                      all_goals simp [markerFlag, h1, h2, h3, h4, h5] at hfi
                    · omega
                  subst hik
                  exact decide_eq_false fun hq => hb (hq.trans rfl)
                · exact absurd hj6 (by omega)
            ·
              exfalso
              interval_cases i <;> simp [markerFlag, h1, h2, h3, h4, h5, h6] at hfi

/-- Running the read loop from a stalled state over a stream that never
contains the awaited prologue byte leaves the decoder stalled: the stage
never completes and nothing is ever extracted. -/
theorem extractLoop_stalled {i : Nat} (hi : i < 6) (stream : List Nat) :
    ∀ s : ExtractState, stalledState i s →
    (∀ b ∈ stream, b ≠ prologue.get ⟨i, hi⟩) →
    ∃ s', extractLoop s stream = some s' ∧ stalledState i s' := by
  induction stream with
  | nil => exact fun s hs _ => ⟨s, rfl, hs⟩
  | cons b bs ih =>
    intro s hs hb
    obtain ⟨s1, hdet, hs1⟩ := detect_stalled_step hi hs (hb b (List.mem_cons_self b bs))
    obtain ⟨s2, hloop, hs2⟩ := ih s1 hs1 fun x hx => hb x (List.mem_cons_of_mem b hx)
    refine ⟨s2, ?_, hs2⟩
    have hend : s.is_end_of_text = false := hs.2.2.2.1
    simp only [extractLoop, hend, Bool.false_eq_true, if_false]
    rw [hdet, Option.some_bind]
    exact hloop

/-- Claim C3 (amended): a wrong prologue byte does not reset progress or
abort; the decoder merely stalls at the unmatched stage until the expected
byte appears.  Consequently, for every byte stream in which stage `i`'s
expected prologue byte value never occurs at all, decode returns an empty
RenderBuffer — but emptiness is not guaranteed for arbitrary streams with
one wrong byte at a prologue position, because later bytes can re-complete
the prologue. -/
theorem C3_amended (termSize : Nat × Nat) (win : Bool) (stream : List Nat)
    (i : Nat) (hi : i < 6)
    (hb : ∀ b ∈ stream, b ≠ prologue.get ⟨i, hi⟩) :
    extract termSize win stream = some [] := by
  have hinit : stalledState i (mkExtract termSize win) := by
    refine ⟨?_, rfl, rfl, rfl, rfl⟩
    intro j hij hj6
    interval_cases j <;> rfl
  obtain ⟨s', hloop, hs'⟩ := extractLoop_stalled hi stream (mkExtract termSize win) hinit hb
  rw [extract, hloop, Option.map_some', hs'.2.2.2.2]

/-- Claim C3 (witness): the amended statement on a stream that never contains
the first prologue byte value 2. -/
theorem C3_witness :
    (∀ b ∈ [70, 80, 97], b ≠ prologue.get ⟨0, by decide⟩) ∧
    extract (3, 4) false [70, 80, 97] = some [] :=
  ⟨by decide, C3_amended (3, 4) false [70, 80, 97] 0 (by decide) (by decide)⟩

/-- A style-argument byte below 128 other than the alignment-reset byte keeps
the alignment mode active, leaves the prologue and text flags and the scratch
buffer untouched, and appends only escape-sequence material to the extracted
text. -/
theorem detect_style_aligned (s : ExtractState) (b : Nat) (hb : b < 128) (hb126 : b ≠ 126)
    (hal : s.is_align = true) :
    ∃ s1, detect_style s b = some s1 ∧ s1.is_align = true ∧
      s1.is_start_marker = s.is_start_marker ∧ s1.is_start_marker_2 = s.is_start_marker_2 ∧
      s1.is_start_marker_3 = s.is_start_marker_3 ∧ s1.is_start_marker_4 = s.is_start_marker_4 ∧
      s1.is_start_marker_5 = s.is_start_marker_5 ∧ s1.is_start_marker_6 = s.is_start_marker_6 ∧
      s1.is_start_of_text = s.is_start_of_text ∧ s1.is_end_of_text = s.is_end_of_text ∧
      s1.get_align_text = s.get_align_text ∧
      ∃ t, s1.extracted_text = s.extracted_text ++ t ∧ ∀ x ∈ t, escByte x := by
  by_cases hb54 : b = 54
  · subst hb54
    rcases hw : s.isWindows with _ | _
    · have hds : detect_style s 54 = some s := by
        simp only [detect_style, LIGHT_SET, BOLD_SET, DIM_SET, ITALIC_SET, UNDERLINED_SET,
          BLINK_SET, RAPID_BLINK_SET]
        norm_num [hw]
      exact ⟨s, hds, hal, rfl, rfl, rfl, rfl, rfl, rfl, rfl, rfl, rfl,
        [], (List.append_nil _).symm, by simp⟩
    · have hds : detect_style s 54
          = some { s with extracted_text := s.extracted_text ++ [27, 91, 54, 109] } := by
        simp only [detect_style, LIGHT_SET, BOLD_SET, DIM_SET, ITALIC_SET, UNDERLINED_SET,
          BLINK_SET, RAPID_BLINK_SET]
        norm_num [hw]
      exact ⟨_, hds, hal, rfl, rfl, rfl, rfl, rfl, rfl, rfl, rfl, rfl,
        [27, 91, 54, 109], rfl, by decide⟩
  · interval_cases b <;>
      first
        | omega
        | exact ⟨_, rfl, hal, rfl, rfl, rfl, rfl, rfl, rfl, rfl, rfl, rfl,
            [], (List.append_nil _).symm, by simp⟩
        | exact ⟨_, rfl, rfl, rfl, rfl, rfl, rfl, rfl, rfl, rfl, rfl, rfl,
            [], (List.append_nil _).symm, by simp⟩
        | exact ⟨_, rfl, hal, rfl, rfl, rfl, rfl, rfl, rfl, rfl, rfl, rfl,
            _, rfl, by decide⟩
        | (refine ⟨_, rfl, hal, rfl, rfl, rfl, rfl, rfl, rfl, rfl, rfl, rfl, _, by simp; rfl, ?_⟩
           decide)

theorem detect_aligned_step {s : ExtractState} {b : Nat}
    (hs : alignedActive s) (hb : b < 128) (hb126 : b ≠ 126) :
    ∃ s', detect s b = some s' ∧
      (alignedActive s' ∨ s'.is_end_of_text = true) ∧
      (∃ t, s'.extracted_text = s.extracted_text ++ t ∧ ∀ x ∈ t, escByte x) ∧
      (∃ u, s'.get_align_text = s.get_align_text ++ u) := by
  obtain ⟨f1, f2, f3, f4, f5, f6, fsot, fend, fal⟩ := hs
  by_cases hsty : s.is_style_marker = true
  · obtain ⟨s1, hds, hal1, p1, p2, p3, p4, p5, p6, psot, pend, pscr, t, ht, hte⟩ :=
      detect_style_aligned s b hb hb126 fal
    refine ⟨{ s1 with is_style_marker := false }, ?_, Or.inl ?_, ⟨t, ht, hte⟩,
      ⟨[], pscr.trans (List.append_nil _).symm⟩⟩
    · unfold detect
      rw [if_pos hsty, hds, Option.map_some']
    · exact ⟨p1.trans f1, p2.trans f2, p3.trans f3, p4.trans f4, p5.trans f5, p6.trans f6,
        psot.trans fsot, pend.trans fend, hal1⟩
  · have h0f : s.is_style_marker = false := by rwa [Bool.not_eq_true] at hsty
    by_cases hb26 : b = STYLE_MARKER
    · refine ⟨{ s with is_style_marker := true }, ?_, Or.inl ?_,
        ⟨[], (List.append_nil _).symm, by simp⟩, ⟨[], (List.append_nil _).symm⟩⟩
      · simp only [detect, h0f, f1, f2, f3, f4, f5, f6, fsot, hb26, Bool.not_true,
          Bool.not_false, Bool.false_eq_true, if_false, if_true, eq_self_iff_true]
      · exact ⟨f1, f2, f3, f4, f5, f6, fsot, fend, fal⟩
    · by_cases hb21 : b = END_OF_TEXT
      · have hE : END_OF_TEXT ≠ STYLE_MARKER := by decide
        refine ⟨{ s with is_end_of_text := true }, ?_, Or.inr rfl,
          ⟨[], (List.append_nil _).symm, by simp⟩, ⟨[], (List.append_nil _).symm⟩⟩
        simp only [detect, h0f, f1, f2, f3, f4, f5, f6, fsot, hb26, hb21, hE, Bool.not_true,
          Bool.not_false, Bool.false_eq_true, if_false, if_true, eq_self_iff_true]
      · refine ⟨{ s with get_align_text := s.get_align_text ++ [b] }, ?_, Or.inl ?_,
          ⟨[], (List.append_nil _).symm, by simp⟩, ⟨[b], rfl⟩⟩
        · simp only [detect, h0f, f1, f2, f3, f4, f5, f6, fsot, fal, hb26, hb21, hb,
            Bool.not_true, Bool.not_false, Bool.false_eq_true, if_false, if_true,
            eq_self_iff_true]
        · exact ⟨f1, f2, f3, f4, f5, f6, fsot, fend, fal⟩

theorem extractLoop_aligned (stream : List Nat) :
    ∀ s : ExtractState, alignedActive s → (∀ b ∈ stream, b < 128 ∧ b ≠ 126) →
    ∃ s', extractLoop s stream = some s' ∧
      (∃ t, s'.extracted_text = s.extracted_text ++ t ∧ ∀ x ∈ t, escByte x) ∧
      (∃ u, s'.get_align_text = s.get_align_text ++ u) := by
  induction stream with
  | nil =>
    exact fun s hs _ => ⟨s, rfl, ⟨[], (List.append_nil _).symm, by simp⟩,
      ⟨[], (List.append_nil _).symm⟩⟩
  | cons b bs ih =>
    intro s hs hb
    have hend : s.is_end_of_text = false := hs.2.2.2.2.2.2.2.1
    obtain ⟨s1, hdet, hinv, ⟨t1, ht1, ht1e⟩, ⟨u1, hu1⟩⟩ :=
      detect_aligned_step hs (hb b (List.mem_cons_self b bs)).1 (hb b (List.mem_cons_self b bs)).2
    rcases hinv with hal1 | hend1
    · obtain ⟨s2, hloop, ⟨t2, ht2, ht2e⟩, ⟨u2, hu2⟩⟩ :=
        ih s1 hal1 fun x hx => hb x (List.mem_cons_of_mem b hx)
      refine ⟨s2, ?_, ⟨t1 ++ t2, ?_, ?_⟩, ⟨u1 ++ u2, ?_⟩⟩
      · simp only [extractLoop, hend, Bool.false_eq_true, if_false]
        rw [hdet, Option.some_bind]
        exact hloop
      · rw [ht2, ht1, List.append_assoc]
      · intro x hx
        rcases List.mem_append.mp hx with h | h
        exacts [ht1e x h, ht2e x h]
      · rw [hu2, hu1, List.append_assoc]
    · have hstop : extractLoop s1 bs = some s1 := by
        cases bs with
        | nil => rfl
        | cons c cs => simp [extractLoop, hend1]
      refine ⟨s1, ?_, ⟨t1, ht1, ht1e⟩, ⟨u1, hu1⟩⟩
      simp only [extractLoop, hend, Bool.false_eq_true, if_false]
      rw [hdet, Option.some_bind]
      exact hstop

/-- Claim C9: if the stream runs out or the end-of-text marker is reached
while an alignment mode is still active (no alignment-reset argument — byte
126 after the style marker — ever occurs), the literal bytes accumulated in
the alignment scratch buffer are silently dropped: the extracted text grows
only by escape-sequence material (ESC, bracket, m, digits), never by the
scratch content, and `extract` returns only `extracted_text`. -/
theorem C9_scratch_dropped (s : ExtractState) (stream : List Nat)
    (hs : alignedActive s) (hstream : ∀ b ∈ stream, b < 128 ∧ b ≠ 126) :
    ∃ s', extractLoop s stream = some s' ∧
      (∃ t, s'.extracted_text = s.extracted_text ++ t ∧ ∀ x ∈ t, escByte x) ∧
      (∃ u, s'.get_align_text = s.get_align_text ++ u) :=
  extractLoop_aligned stream s hs hstream

/-- Claim C9 (witness): the aligned sample state fed a literal byte and the
end-of-text byte — the literal lands in the scratch buffer and the extracted
text is unchanged. -/
theorem C9_witness :
    alignedActive alignedSample ∧ (∀ b ∈ [105, 21], b < 128 ∧ b ≠ 126) ∧
    ∃ s', extractLoop alignedSample [105, 21] = some s' ∧
      (∃ t, s'.extracted_text = alignedSample.extracted_text ++ t ∧ ∀ x ∈ t, escByte x) ∧
      (∃ u, s'.get_align_text = alignedSample.get_align_text ++ u) :=
  ⟨⟨rfl, rfl, rfl, rfl, rfl, rfl, rfl, rfl, rfl⟩, by decide,
    C9_scratch_dropped alignedSample [105, 21]
      ⟨rfl, rfl, rfl, rfl, rfl, rfl, rfl, rfl, rfl⟩ (by decide)⟩
